import Mathlib

/-!
Shallow embedding of the Dolly 2.0 data-preparation pipeline
(`01_data_preperation.py`).  Stack Exchange posts parsed from `Posts.xml`
are filtered by score and raw body length, their HTML bodies are stripped
to plain text (`gardening_df`), questions are self-joined to their answers
(`qa_df`), and each question/answer pair is concatenated into a training
document (`docs_df`).  An optional summarization step (`summarize`)
shortens texts longer than 5000 characters.  Dataframes are embedded as
lists of rows; persisted tables are embedded as explicit state passed to
the write operation.
-/

/-- One parsed row of `Posts.xml` (output of the XML reader with
`rowTag = "row"`): attributes `_Id`, `_ParentId`, `_Score`, `_Body`.
A null `_ParentId` marks a question, a non-null one marks an answer. -/
structure Post where
  _Id : Int
  _ParentId : Option Int
  _Score : Int
  _Body : String
deriving DecidableEq

/-- One row of the `gardening_dataset` table produced by the Filter & Clean
stage: columns `id`, `body`, `parent_id` in the order selected by the
source. -/
structure CleanedPost where
  id : Int
  body : String
  parent_id : Option Int
deriving DecidableEq

/-- One row of `qa_df`: columns `answer_id`, `question`, `answer`. -/
structure QAPair where
  answer_id : Int
  question : String
  answer : String
deriving DecidableEq

/-- One row of the `gardening_training_dataset` table: columns `source`
and `text`. -/
structure TrainingDocument where
  source : Int
  text : String
deriving DecidableEq

/-- Modelled from the spec: the HTML-to-text extraction inside the
`html_to_text` UDF is delegated to an external standards-tolerant parser
(`BeautifulSoup(x).get_text()`), whose code is not part of this
repository.  Following the spec's words ("strip_html_tags", "must handle
malformed/partial markup without raising — return best-effort extracted
text"), markup tags are removed by a total scanner: the Boolean state
records whether the scanner is inside a tag; characters from a tag opener
up to the next tag closer are dropped, an unterminated tag consumes the
rest of the text, and every other character is kept. -/
def stripTags : Bool → List Char → List Char
  | _, [] => []
  | false, c :: rest => if c = '<' then stripTags true rest else c :: stripTags false rest
  | true, c :: rest => if c = '>' then stripTags false rest else stripTags true rest

/-- Plain-text extraction of one HTML body (`BeautifulSoup(x).get_text()`),
modelled from the spec as total tag stripping starting outside any tag. -/
def strip_html_tags (s : String) : String := String.mk (stripTags false s.data)

/-- UDF `html_to_text`: applies the extraction to every body of a batch
(`html.apply(lambda x: BeautifulSoup(x).get_text())`). -/
def html_to_text (html : List String) : List String := html.map strip_html_tags

/-- Stage 3 dataframe `gardening_df`: keep rows with `_Score >= 5`, then
rows with `length(_Body) <= 1000` (the length of the raw HTML body, since
both filters run before the `withColumn` that strips tags), then convert
the body to plain text and rename `_Id` and `_ParentId` to `id` and
`parent_id`, selecting `id, body, parent_id`. -/
def gardening_df (raw_gardening : List Post) : List CleanedPost :=
  ((raw_gardening.filter (fun p => 5 ≤ p._Score)).filter
      (fun p => p._Body.length ≤ 1000)).map
    (fun p => { id := p._Id, body := strip_html_tags p._Body, parent_id := p._ParentId })

/-- Write modes used by the source: `overwrite` fully replaces any prior
version of the table, `append` would add to it. -/
inductive SaveMode
  | overwrite
  | append
deriving DecidableEq

/-- Table write `df.write.mode(m).saveAsTable(...)`: returns the table
contents after the write, given the table's prior contents. -/
def saveAsTable (m : SaveMode) (df : List α) (prior : List α) : List α :=
  match m with
  | SaveMode.overwrite => df
  | SaveMode.append => prior ++ df

/-- Stage 3 end to end: build `gardening_df` from the raw posts and persist
it with `write.mode("overwrite").saveAsTable("gardening_dataset")`, given
the table's prior contents. -/
def runStage3 (raw : List Post) (prior : List CleanedPost) : List CleanedPost :=
  saveAsTable SaveMode.overwrite (gardening_df raw) prior

/-- Stage 4 self-join `qa_df`: the left side `a` keeps rows with
`parent_id IS NULL` (questions); the right side `b` is the whole cleaned
table, joined on `a.id == b.parent_id` (a null `parent_id` on the right
never equals `a.id`, so only answers match); the result is projected to
`(b.id, a.body, b.body)` and renamed `(answer_id, question, answer)`. -/
def qa_df (gdf : List CleanedPost) : List QAPair :=
  (gdf.filter (fun a => a.parent_id = none)).flatMap (fun a =>
    (gdf.filter (fun b => b.parent_id = some a.id)).map
      (fun b => { answer_id := b.id, question := a.body, answer := b.body }))

/-- Stage 4 projection `docs_df`: each pair becomes a training document
with `source = answer_id` and `text = concat(question, "\n\n", answer)`. -/
def docs_df (qa : List QAPair) : List TrainingDocument :=
  qa.map (fun r => { source := r.answer_id, text := r.question ++ "\n\n" ++ r.answer })

/-- Inner helper `summarize_txt` of the `summarize` UDF: a text longer
than 5000 characters is replaced by the model's summary, any other text is
returned unchanged.  The loaded summarization model is abstracted as the
function `summarizer` (the value of `summarizer(text)[0]["summary_text"]`). -/
def summarize_txt (summarizer : String → String) (text : String) : String :=
  if 5000 < text.length then summarizer text else text

/-- Fallible variant of `summarize_txt` for reasoning about model errors:
the summarization model may raise, and the source code wraps the call in
no exception handler, so an error raised by the model propagates out of
`summarize_txt` unchanged. -/
def summarize_txtE (summarizer : String → Except String String) (text : String) :
    Except String String :=
  if 5000 < text.length then summarizer text else Except.ok text

/-- The `summarize` pandas UDF applied to one batch
(`serie.apply(summarize_txt)`): rows are processed in order and an
uncaught error on any row aborts the whole batch. -/
def summarize (summarizer : String → Except String String) :
    List String → Except String (List String)
  | [] => Except.ok []
  | t :: rest =>
    match summarize_txtE summarizer t with
    | Except.error e => Except.error e
    | Except.ok s =>
      match summarize summarizer rest with
      | Except.error e => Except.error e
      | Except.ok ss => Except.ok (s :: ss)

/-- The output of the tag scanner never contains a tag opener. -/
theorem stripTags_no_open (b : Bool) (l : List Char) : '<' ∉ stripTags b l := by
  induction l generalizing b with
  | nil => cases b <;> simp [stripTags]
  | cons c rest ih =>
    cases b with
    | false =>
      simp only [stripTags]
      split
      · exact ih true
      · next h =>
        intro hmem
        rcases List.mem_cons.mp hmem with h1 | h2
        · exact h h1.symm
        · exact ih false h2
    | true =>
      simp only [stripTags]
      split
      · exact ih false
      · exact ih true

/-- On a text with no tag opener, the tag scanner is the identity. -/
theorem stripTags_id_of_no_open (l : List Char) (h : '<' ∉ l) :
    stripTags false l = l := by
  induction l with
  | nil => simp [stripTags]
  | cons c rest ih =>
    have hc : ¬c = '<' := fun he => h (he ▸ List.mem_cons_self c rest)
    simp only [stripTags, if_neg hc, List.cons.injEq, true_and]
    exact ih fun hm => h (List.mem_cons_of_mem c hm)

/-- C5: HTML stripping is idempotent — for every text `x`,
`strip_html_tags (strip_html_tags x) = strip_html_tags x`, so applying the
`html_to_text` transform a second time to already-stripped text is a
no-op. -/
theorem strip_html_tags_idem (x : String) :
    strip_html_tags (strip_html_tags x) = strip_html_tags x := by
  show String.mk (stripTags false (stripTags false x.data)) =
    String.mk (stripTags false x.data)
  exact congrArg String.mk
    (stripTags_id_of_no_open _ (stripTags_no_open false x.data))

/-- C4: the summarization transform returns the input text unchanged when
its length is at most 5000, and returns the model-generated summary in its
place when the length exceeds 5000. -/
theorem summarize_txt_contract (summarizer : String → String) (text : String) :
    (text.length ≤ 5000 → summarize_txt summarizer text = text) ∧
    (5000 < text.length → summarize_txt summarizer text = summarizer text) := by
  constructor
  · intro h
    simp [summarize_txt, Nat.not_lt.mpr h]
  · intro h
    simp [summarize_txt, h]

theorem summarize_txt_contract_witness :
    summarize_txt (fun _ => "S") "short text" = "short text" ∧
    summarize_txt (fun _ => "S") (String.mk (List.replicate 5001 'a')) = "S" := by
  constructor
  · exact (summarize_txt_contract (fun _ => "S") "short text").1 (by decide)
  · refine (summarize_txt_contract (fun _ => "S") (String.mk (List.replicate 5001 'a'))).2 ?_
    show 5000 < (List.replicate 5001 'a').length
    rw [List.length_replicate]
    omega

/-- C3: the derived training documents are in one-to-one correspondence
with the question/answer pairs; each document has `source` equal to the
pair's `answer_id` and `text` equal to the question text, then exactly the
two-character separator `"\n\n"`, then the answer text. -/
theorem docs_df_exact (qa : List QAPair) :
    (docs_df qa).length = qa.length ∧
    (∀ r ∈ qa,
      ({ source := r.answer_id, text := r.question ++ "\n\n" ++ r.answer } :
        TrainingDocument) ∈ docs_df qa) ∧
    (∀ d ∈ docs_df qa, ∃ r ∈ qa, d.source = r.answer_id ∧
      d.text = r.question ++ "\n\n" ++ r.answer) ∧
    ("\n\n" : String).length = 2 := by
  refine ⟨by simp [docs_df], ?_, ?_, rfl⟩
  · intro r hr
    exact List.mem_map_of_mem _ hr
  · intro d hd
    rcases List.mem_map.mp hd with ⟨r, hr, rfl⟩
    exact ⟨r, hr, rfl, rfl⟩

theorem docs_df_exact_witness :
    ({ source := 2, text := "How to water roses?\n\nWater daily." } :
      TrainingDocument) ∈
    docs_df [{ answer_id := 2, question := "How to water roses?",
               answer := "Water daily." }] :=
  (docs_df_exact _).2.1
    { answer_id := 2, question := "How to water roses?", answer := "Water daily." }
    (List.mem_singleton.mpr rfl)

/-- C2: a post of the raw table survives the Filter & Clean stage (appears
in `gardening_df` under its `_Id`) if and only if its score is at least 5
and the length of its raw HTML body is at most 1000; every post failing
either bound is absent from the cleaned table. -/
theorem filter_clean_keep_iff (posts : List Post)
    (hnd : (posts.map Post._Id).Nodup) (p : Post) (hp : p ∈ posts) :
    (∃ c ∈ gardening_df posts, c.id = p._Id) ↔
      5 ≤ p._Score ∧ p._Body.length ≤ 1000 := by
  constructor
  · rintro ⟨c, hc, hcid⟩
    rcases List.mem_map.mp hc with ⟨q, hq, rfl⟩
    rcases List.mem_filter.mp hq with ⟨hq1, hq2⟩
    rcases List.mem_filter.mp hq1 with ⟨hqmem, hq3⟩
    have hqp : q = p :=
      List.inj_on_of_nodup_map hnd hqmem hp hcid
    subst hqp
    exact ⟨by simpa using hq3, by simpa using hq2⟩
  · rintro ⟨h1, h2⟩
    refine ⟨{ id := p._Id, body := strip_html_tags p._Body,
              parent_id := p._ParentId }, ?_, rfl⟩
    exact List.mem_map_of_mem _
      (List.mem_filter.mpr ⟨List.mem_filter.mpr ⟨hp, by simpa using h1⟩,
        by simpa using h2⟩)

theorem filter_clean_keep_iff_witness :
    (∃ c ∈ gardening_df [⟨1, none, 4, "<p>ok</p>"⟩, ⟨2, none, 10, "<p>ok</p>"⟩],
      c.id = 2) ∧
    ¬(∃ c ∈ gardening_df [⟨1, none, 4, "<p>ok</p>"⟩, ⟨2, none, 10, "<p>ok</p>"⟩],
      c.id = 1) := by
  constructor
  · exact (filter_clean_keep_iff _ (by decide) ⟨2, none, 10, "<p>ok</p>"⟩
      (by simp)).mpr (by decide)
  · intro h
    exact absurd ((filter_clean_keep_iff _ (by decide) ⟨1, none, 4, "<p>ok</p>"⟩
      (by simp)).mp h) (by decide)

/-- C10: the Filter & Clean stage modifies only the body — every output
row of `gardening_df` comes from an input post that passed both filters
and carries that post's `_Id` and `_ParentId` unchanged (renamed to `id`
and `parent_id`), with only the body transformed; conversely every
surviving post appears with its identifiers unchanged. -/
theorem filter_clean_frame (posts : List Post) :
    (∀ c ∈ gardening_df posts, ∃ p ∈ posts,
      5 ≤ p._Score ∧ p._Body.length ≤ 1000 ∧
      c.id = p._Id ∧ c.parent_id = p._ParentId ∧
      c.body = strip_html_tags p._Body) ∧
    (∀ p ∈ posts, 5 ≤ p._Score → p._Body.length ≤ 1000 →
      ({ id := p._Id, body := strip_html_tags p._Body,
         parent_id := p._ParentId } : CleanedPost) ∈ gardening_df posts) := by
  constructor
  · intro c hc
    rcases List.mem_map.mp hc with ⟨q, hq, rfl⟩
    rcases List.mem_filter.mp hq with ⟨hq1, hq2⟩
    rcases List.mem_filter.mp hq1 with ⟨hqmem, hq3⟩
    exact ⟨q, hqmem, by simpa using hq3, by simpa using hq2, rfl, rfl, rfl⟩
  · intro p hp h1 h2
    exact List.mem_map_of_mem _
      (List.mem_filter.mpr ⟨List.mem_filter.mpr ⟨hp, by simpa using h1⟩,
        by simpa using h2⟩)

theorem filter_clean_frame_witness :
    ({ id := 7, body := "ok", parent_id := some 3 } : CleanedPost) ∈
      gardening_df [⟨7, some 3, 9, "<p>ok</p>"⟩] :=
  (filter_clean_frame [⟨7, some 3, 9, "<p>ok</p>"⟩]).2 ⟨7, some 3, 9, "<p>ok</p>"⟩
    (List.mem_singleton.mpr rfl) (by decide) (by decide)

/-- C6: the Filter & Clean stage is deterministic and idempotent — the
table produced by `runStage3` from a given input does not depend on the
table's prior contents (the overwrite write fully replaces any prior
version), so two runs over an identical input produce identical
`gardening_dataset` tables, and re-running over the table just produced
changes nothing. -/
theorem stage3_deterministic_idempotent (raw : List Post)
    (prior1 prior2 : List CleanedPost) :
    runStage3 raw prior1 = runStage3 raw prior2 ∧
    runStage3 raw (runStage3 raw prior1) = runStage3 raw prior1 :=
  ⟨rfl, rfl⟩

/-- C8: the `html_to_text` transform is total over its batch — it produces
exactly one output row per input row, each equal to the best-effort
extraction of that row's body, for every input string including malformed
or partial markup, so no row can abort the batch. -/
theorem html_to_text_total (html : List String) :
    (html_to_text html).length = html.length ∧
    ∀ i, ∀ h : i < html.length, ∃ h2 : i < (html_to_text html).length,
      (html_to_text html).get ⟨i, h2⟩ = strip_html_tags (html.get ⟨i, h⟩) := by
  refine ⟨by simp [html_to_text], ?_⟩
  intro i h
  refine ⟨by simpa [html_to_text] using h, ?_⟩
  simp [html_to_text]

theorem html_to_text_total_witness :
    (html_to_text ["<p>unclosed", "a <b", "plain"]).length = 3 ∧
    ∃ h2 : 0 < (html_to_text ["<p>unclosed", "a <b", "plain"]).length,
      (html_to_text ["<p>unclosed", "a <b", "plain"]).get ⟨0, h2⟩ =
        strip_html_tags "<p>unclosed" :=
  ⟨(html_to_text_total ["<p>unclosed", "a <b", "plain"]).1,
    (html_to_text_total ["<p>unclosed", "a <b", "plain"]).2 0 (by decide)⟩

/-- C7 counterexample: on a batch whose first document is longer than 5000
characters and whose summarization raises, the whole batch aborts with the
model's error — the failing document does not fall back to its original
text and the remaining documents are not processed. -/
theorem summarize_failure_aborts_cex :
    (summarize (fun _ => Except.error "model failure")
      [String.mk (List.replicate 5001 'a'), "second doc"] =
      Except.error "model failure") ∧
    (summarize (fun _ => Except.error "model failure")
      [String.mk (List.replicate 5001 'a'), "second doc"] ≠
      Except.ok [String.mk (List.replicate 5001 'a'), "second doc"]) := by
  have hlen : 5000 < (String.mk (List.replicate 5001 'a')).length := by
    show 5000 < (List.replicate 5001 'a').length
    rw [List.length_replicate]
    omega
  have h2 : summarize_txtE (fun _ => Except.error "model failure")
      (String.mk (List.replicate 5001 'a')) = Except.error "model failure" := by
    unfold summarize_txtE
    rw [if_pos hlen]
  have h1 : summarize (fun _ => Except.error "model failure")
      [String.mk (List.replicate 5001 'a'), "second doc"] =
      Except.error "model failure" := by
    simp only [summarize, h2]
  exact ⟨h1, by rw [h1]; exact fun hcontra => Except.noConfusion hcontra⟩

/-- C7 amended: a summarization failure on one document aborts the whole
batch — `summarize_txt` wraps the model call in no handler, so when the
model errors on a document longer than 5000 characters the error
propagates out of `summarize` unchanged and the remaining documents are
not processed. -/
theorem summarize_failure_aborts (summarizer : String → Except String String)
    (e : String) (text : String) (rest : List String)
    (hlen : 5000 < text.length) (herr : summarizer text = Except.error e) :
    summarize summarizer (text :: rest) = Except.error e := by
  simp [summarize, summarize_txtE, hlen, herr]

theorem summarize_failure_aborts_witness :
    summarize (fun _ => Except.error "boom")
      [String.mk (List.replicate 5001 'a'), "ok"] = Except.error "boom" :=
  summarize_failure_aborts _ "boom" (String.mk (List.replicate 5001 'a')) ["ok"]
    (by show 5000 < (List.replicate 5001 'a').length
        rw [List.length_replicate]
        omega)
    rfl

/-- Under pairwise distinct `id` values, the produced answer identifiers
are pairwise distinct: each row of `qa_df` is keyed by the id of the
answer row that produced it, an answer row joins at most one question
(the unique row carrying its `parent_id`), and distinct answer rows carry
distinct ids. -/
theorem qa_sources_nodup (gdf : List CleanedPost)
    (hnd : (gdf.map CleanedPost.id).Nodup) :
    ((qa_df gdf).map QAPair.answer_id).Nodup := by
  have hgnd : gdf.Nodup := List.Nodup.of_map _ hnd
  have hinj : ∀ ⦃x⦄, x ∈ gdf → ∀ ⦃y⦄, y ∈ gdf → x.id = y.id → x = y :=
    List.inj_on_of_nodup_map hnd
  have key : (qa_df gdf).map QAPair.answer_id =
      (gdf.filter (fun a => a.parent_id = none)).flatMap
        (fun a => (gdf.filter (fun b => b.parent_id = some a.id)).map
          CleanedPost.id) := by
    unfold qa_df
    rw [List.map_flatMap]
    refine List.flatMap_congr fun a _ => ?_
    rw [List.map_map]
    exact List.map_congr_left fun b _ => rfl
  rw [key]
  refine List.nodup_flatMap.mpr ⟨?_, ?_⟩
  · intro a _
    exact hnd.sublist ((List.filter_sublist _).map _)
  · have hQnd : (gdf.filter (fun a => a.parent_id = none)).Nodup :=
      hgnd.filter _
    rw [List.pairwise_iff_forall_sublist]
    intro a1 a2 hsub
    have hne : a1 ≠ a2 := (List.pairwise_iff_forall_sublist.mp hQnd) hsub
    have ha1 : a1 ∈ gdf :=
      (List.mem_filter.mp (hsub.subset (by simp))).1
    have ha2 : a2 ∈ gdf :=
      (List.mem_filter.mp (hsub.subset (by simp))).1
    show List.Disjoint _ _
    intro x hx1 hx2
    rcases List.mem_map.mp hx1 with ⟨b1, hb1, rfl⟩
    rcases List.mem_map.mp hx2 with ⟨b2, hb2, hbid⟩
    rcases List.mem_filter.mp hb1 with ⟨hb1g, hb1p⟩
    rcases List.mem_filter.mp hb2 with ⟨hb2g, hb2p⟩
    have hb : b2 = b1 := hinj hb2g hb1g hbid
    subst hb
    have hp1 : b2.parent_id = some a1.id := by simpa using hb1p
    have hp2 : b2.parent_id = some a2.id := by simpa using hb2p
    have hida : a1.id = a2.id := by
      have := hp1.symm.trans hp2
      exact Option.some.inj this
    exact hne (hinj ha1 ha2 hida)

/-- C1: the Question/Answer assembly is an inner equi-join.  Under pairwise
distinct `id` values: a row belongs to `qa_df` exactly when it is built
from a question `q` (`parent_id` null) and an answer `a` with
`a.parent_id = some q.id`, both in the cleaned table; each such (question,
answer) pair produces its row exactly once; an answer whose `parent_id`
matches no question in the table produces no row; and a question with no
matching answer contributes nothing to `qa_df` or to the derived
training documents. -/
theorem qa_join_correct (gdf : List CleanedPost)
    (hnd : (gdf.map CleanedPost.id).Nodup) :
    (∀ r : QAPair, r ∈ qa_df gdf ↔ ∃ q ∈ gdf, ∃ a ∈ gdf,
      q.parent_id = none ∧ a.parent_id = some q.id ∧
      r = { answer_id := a.id, question := q.body, answer := a.body }) ∧
    (∀ q ∈ gdf, ∀ a ∈ gdf, q.parent_id = none → a.parent_id = some q.id →
      (qa_df gdf).count
        { answer_id := a.id, question := q.body, answer := a.body } = 1) ∧
    (∀ a ∈ gdf, (∀ q ∈ gdf, q.parent_id = none → a.parent_id ≠ some q.id) →
      ∀ r ∈ qa_df gdf, r.answer_id ≠ a.id) ∧
    (∀ q rest, gdf = q :: rest → q.parent_id = none →
      (∀ b ∈ gdf, b.parent_id ≠ some q.id) →
      qa_df gdf = qa_df rest ∧
      docs_df (qa_df gdf) = docs_df (qa_df rest)) := by
  have hinj : ∀ ⦃x⦄, x ∈ gdf → ∀ ⦃y⦄, y ∈ gdf → x.id = y.id → x = y :=
    List.inj_on_of_nodup_map hnd
  have hiff : ∀ r : QAPair, r ∈ qa_df gdf ↔ ∃ q ∈ gdf, ∃ a ∈ gdf,
      q.parent_id = none ∧ a.parent_id = some q.id ∧
      r = { answer_id := a.id, question := q.body, answer := a.body } := by
    intro r
    constructor
    · intro hr
      rcases List.mem_flatMap.mp hr with ⟨q, hq, hr2⟩
      rcases List.mem_filter.mp hq with ⟨hqg, hqp⟩
      rcases List.mem_map.mp hr2 with ⟨b, hb, rfl⟩
      rcases List.mem_filter.mp hb with ⟨hbg, hbp⟩
      exact ⟨q, hqg, b, hbg, by simpa using hqp, by simpa using hbp, rfl⟩
    · rintro ⟨q, hq, a, ha, hqp, hap, rfl⟩
      refine List.mem_flatMap.mpr
        ⟨q, List.mem_filter.mpr ⟨hq, by simpa using hqp⟩, ?_⟩
      exact List.mem_map_of_mem _ (List.mem_filter.mpr ⟨ha, by simpa using hap⟩)
  refine ⟨hiff, ?_, ?_, ?_⟩
  · intro q hq a ha hqp hap
    have hqnodup : (qa_df gdf).Nodup :=
      List.Nodup.of_map _ (qa_sources_nodup gdf hnd)
    refine List.count_eq_one_of_mem hqnodup ?_
    exact (hiff _).mpr ⟨q, hq, a, ha, hqp, hap, rfl⟩
  · intro a ha hno r hr hrid
    rcases (hiff r).mp hr with ⟨q, hq, b, hb, hqp, hbp, rfl⟩
    have hba : b = a := hinj hb ha hrid
    subst hba
    exact hno q hq hqp hbp
  · intro q rest hgdf hq hno
    subst hgdf
    have hstep : ∀ a : CleanedPost,
        (q :: rest).filter (fun b => b.parent_id = some a.id) =
          rest.filter (fun b => b.parent_id = some a.id) := by
      intro a
      rw [List.filter_cons_of_neg]
      simp [hq]
    have hempty : rest.filter (fun b => b.parent_id = some q.id) = [] := by
      rw [List.filter_eq_nil_iff]
      intro b hb
      simpa using hno b (List.mem_cons_of_mem q hb)
    have hmain : qa_df (q :: rest) = qa_df rest := by
      unfold qa_df
      rw [List.filter_cons_of_pos (by simpa using hq)]
      rw [List.flatMap_cons]
      rw [hstep q, hempty]
      simp only [List.map_nil, List.nil_append]
      exact List.flatMap_congr fun a _ => by rw [hstep a]
    exact ⟨hmain, by rw [hmain]⟩

theorem qa_join_correct_witness :
    (qa_df [⟨10, "How to water roses?", none⟩, ⟨20, "Water daily.", some 10⟩]).count
      { answer_id := 20, question := "How to water roses?",
        answer := "Water daily." } = 1 :=
  (qa_join_correct [⟨10, "How to water roses?", none⟩,
      ⟨20, "Water daily.", some 10⟩] (by decide)).2.1
    ⟨10, "How to water roses?", none⟩ (by simp)
    ⟨20, "Water daily.", some 10⟩ (by simp) rfl rfl

/-- C9: if the `id` values of the cleaned table are pairwise distinct,
every answer yields at most one row of `qa_df` (each answer identifier
occurs at most once among the produced rows), and the `source` keys of the
derived training documents are pairwise distinct. -/
theorem training_sources_distinct (gdf : List CleanedPost)
    (hnd : (gdf.map CleanedPost.id).Nodup) :
    ((docs_df (qa_df gdf)).map TrainingDocument.source).Nodup ∧
    ∀ x : Int, ((qa_df gdf).map QAPair.answer_id).count x ≤ 1 := by
  have hsrc := qa_sources_nodup gdf hnd
  constructor
  · have hmap : (docs_df (qa_df gdf)).map TrainingDocument.source =
        (qa_df gdf).map QAPair.answer_id := by
      unfold docs_df
      rw [List.map_map]
      exact List.map_congr_left fun r _ => rfl
    rw [hmap]
    exact hsrc
  · exact fun x => List.nodup_iff_count_le_one.mp hsrc x

theorem training_sources_distinct_witness :
    ((docs_df (qa_df [⟨10, "q", none⟩, ⟨20, "a1", some 10⟩,
        ⟨30, "a2", some 10⟩])).map TrainingDocument.source).Nodup :=
  (training_sources_distinct [⟨10, "q", none⟩, ⟨20, "a1", some 10⟩,
    ⟨30, "a2", some 10⟩] (by decide)).1
